import Mathlib

/-!
A verification development for the real-time DMX/Art-Net I/O engine of the
`led_wall` repository.  The Python sources under `src/led_wall/` are shallowly
embedded below: the `StupidArtnet` transmitter (`MultiUniverseArtnet.py`), the
universe mapper and output path of `IO_Manager` (`io_manager.py`), the
`OutputCorrection` curves (`io_manager.py`), and the DMX channel input handler
(`ui/dmx_channels.py`).  Python dictionaries keyed by universe id are modelled
as total functions that are only ever read at keys actually present in the
dictionary; wall-clock timestamps are modelled as rationals; byte values are
natural numbers below 256.
-/

namespace LedWall

/-- Modelled from the spec: helper of the external `stupidArtnet.ArtnetUtils`
module imported by `MultiUniverseArtnet.py`; clamps a value into
`[range_min, range_max]` and, when `make_even` is set and the clamped value is
odd, bumps it up by one ("Payload length must be even and in [2,512]; if not,
caller must pad"). -/
def put_in_range (number range_min range_max : Int) (make_even : Bool) : Int :=
  let n := max range_min (min number range_max)
  if make_even = true ∧ n % 2 ≠ 0 then n + 1 else n

/-- Modelled from the spec: helper of the external `stupidArtnet.ArtnetUtils`
module; splits a number into its 8-bit high and low parts, high part first
("2-byte universe split into low/high bytes", "2-byte big-endian payload
length"). -/
def shift_this (number : Nat) : Nat × Nat :=
  ((number >>> 8) &&& 0xFF, number &&& 0xFF)

/-- State of a `StupidArtnet` transmitter (`MultiUniverseArtnet.py`).  The
per-universe dictionaries `universe_buffer`, `last_sent_buffer`,
`last_send_time` and `sequences` are modelled as total functions; the source
only reads them at keys listed in `universes`.  Timestamps are rationals
standing for `time.time()` values. -/
structure StupidArtnet where
  universes : List Nat
  packet_size : Nat
  universe_buffer : Nat → List Nat
  last_sent_buffer : Nat → List Nat
  last_send_time : Nat → ℚ
  sequences : Nat → Nat
  is_simplified : Bool
  subnet : Nat
  net : Nat
  make_even : Bool

namespace StupidArtnet

/-- `StupidArtnet.make_artdmx_header` (`MultiUniverseArtnet.py` lines
105-147): id string `Art-Net` plus null, opcode `0x00 0x50` low byte first,
protocol version `0x00 14` high byte first, sequence byte, physical port `0`,
universe (low byte then high byte in simplified mode), packet size high byte
first. -/
def make_artdmx_header (a : StupidArtnet) (u : Nat) : List Nat :=
  -- bytes of the string 'Art-Net' followed by the null terminator
  let idBytes : List Nat := [65, 114, 116, 45, 78, 101, 116, 0]
  let opcode : List Nat := [0x00, 0x50]
  let protVer : List Nat := [0x0, 14]
  let seqPhys : List Nat := [a.sequences u, 0x00]
  let uni : List Nat :=
    if a.is_simplified then
      let p := shift_this u
      [p.2, p.1]
    else
      [(a.subnet <<< 4) ||| u, a.net &&& 0xFF]
  let ps := shift_this a.packet_size
  idBytes ++ opcode ++ protVer ++ seqPhys ++ uni ++ [ps.1, ps.2]

/-- The condition under which `StupidArtnet.show` transmits universe `u` at
time `t` (`MultiUniverseArtnet.py` line 182): the pending buffer differs from
the last-sent buffer, or more than one second has passed since the last send. -/
def sendCondition (a : StupidArtnet) (t : ℚ) (u : Nat) : Prop :=
  a.universe_buffer u ≠ a.last_sent_buffer u ∨ t - a.last_send_time u > 1

instance sendCondition.instDecidable (a : StupidArtnet) (t : ℚ) (u : Nat) :
    Decidable (sendCondition a t u) :=
  inferInstanceAs (Decidable (_ ∨ _))

/-- One iteration of the `for u in self.universes` loop in `StupidArtnet.show`
(`MultiUniverseArtnet.py` lines 180-194).  `fails u = true` models
`socket.sendto` raising `socket.error` for that universe: the two assignments
after `sendto` are skipped, but the sequence counter is still incremented
because that statement sits in a `finally` block.  Returns the new state and
the list of `(universe, packet)` pairs actually handed to the socket. -/
def showStep (fails : Nat → Bool) (t : ℚ) (a : StupidArtnet) (u : Nat) :
    StupidArtnet × List (Nat × List Nat) :=
  if sendCondition a t u then
    let packet := a.make_artdmx_header u ++ a.universe_buffer u
    if fails u then
      ({ a with sequences := Function.update a.sequences u ((a.sequences u + 1) % 256) }, [])
    else
      ({ a with
          last_sent_buffer := Function.update a.last_sent_buffer u (a.universe_buffer u),
          last_send_time := Function.update a.last_send_time u t,
          sequences := Function.update a.sequences u ((a.sequences u + 1) % 256) },
        [(u, packet)])
  else
    (a, [])

/-- The sweep of `StupidArtnet.show` over a list of universes, threading the
transmitter state and collecting the transmitted packets in order. -/
def showOver (fails : Nat → Bool) (t : ℚ) (a : StupidArtnet) :
    List Nat → StupidArtnet × List (Nat × List Nat)
  | [] => (a, [])
  | u :: rest =>
      let s := showStep fails t a u
      let r := showOver fails t s.1 rest
      (r.1, s.2 ++ r.2)

/-- `StupidArtnet.show` (`MultiUniverseArtnet.py` lines 177-197): sweep over
`self.universes` at current time `t`.  `fails` tells which universes hit a
socket error. -/
def show' (fails : Nat → Bool) (t : ℚ) (a : StupidArtnet) :
    StupidArtnet × List (Nat × List Nat) :=
  showOver fails t a a.universes

/-- Number of packets transmitted for universe `u` in a packet list. -/
def sentTo (u : Nat) (packets : List (Nat × List Nat)) : Nat :=
  (packets.filter (fun p => p.1 == u)).length

/-- `StupidArtnet.set` (`MultiUniverseArtnet.py` lines 289-297) with an
explicit universe argument (the `universe=None` default, which picks
`self.universes[0]`, is not exercised by the engine).  A payload whose length
differs from the configured packet size is rejected with a printed error and
no state change. -/
def set (a : StupidArtnet) (value : List Nat) (u : Nat) : StupidArtnet :=
  if value.length ≠ a.packet_size then a
  else { a with universe_buffer := Function.update a.universe_buffer u value }

/-- `StupidArtnet.set_universe` (`MultiUniverseArtnet.py` lines 222-241):
clamps the universe, resets the universe list to a singleton and replaces all
four per-universe dictionaries with fresh single-key dictionaries (zero
buffers, time `0.0`, sequence `0`).  Each replaced dictionary has exactly the
new universe as key; it is modelled by the constant function returning the
fresh value. -/
def set_universe (a : StupidArtnet) (x : Int) : StupidArtnet :=
  let u := if a.is_simplified then put_in_range x 0 255 false
           else put_in_range x 0 15 false
  let un := u.toNat
  { a with
      universes := [un],
      universe_buffer := fun _ => List.replicate a.packet_size 0,
      last_sent_buffer := fun _ => List.replicate a.packet_size 0,
      last_send_time := fun _ => 0,
      sequences := fun _ => 0 }

/-- The buffer resizing performed inside `StupidArtnet.set_packet_size`:
a fresh zero buffer of the new size whose prefix is copied from the old
buffer (`new_buffer[:length] = old_buffer[:length]` with
`length = min(len(old_buffer), packet_size)`). -/
def resizeBuffer (old : List Nat) (ps : Nat) : List Nat :=
  old.take ps ++ List.replicate (ps - (old.take ps).length) 0

/-- The per-universe body of the resize loop of `set_packet_size`
(`MultiUniverseArtnet.py` lines 263-276). -/
def resizeStep (ps : Nat) (acc : StupidArtnet) (u : Nat) : StupidArtnet :=
  { acc with
      universe_buffer :=
        Function.update acc.universe_buffer u (resizeBuffer (acc.universe_buffer u) ps),
      last_sent_buffer :=
        Function.update acc.last_sent_buffer u (resizeBuffer (acc.last_sent_buffer u) ps) }

/-- `StupidArtnet.set_packet_size` (`MultiUniverseArtnet.py` lines 260-276):
clamps the new size (even if `make_even`), then for each universe resizes the
pending and last-sent buffers in place, preserving old contents up to the
smaller size.  Sequence counters and last-send timestamps are not touched. -/
def set_packet_size (a : StupidArtnet) (packet_size : Int) : StupidArtnet :=
  let ps := (put_in_range packet_size 2 512 a.make_even).toNat
  a.universes.foldl (resizeStep ps) { a with packet_size := ps }

end StupidArtnet

/-- The universe-assignment loop of `IO_Manager.output_artnet_init`
(`io_manager.py` lines 488-503): starting from `cur` with `cnt` segments
already assigned on the current device, emit one universe id per remaining
segment; after `cons` consecutive ids the next id skips ahead by
`(dev - cons) + 1`, otherwise it increases by `1`.  Ids are integers because
the Python counter may decrease when `dev < cons`. -/
def mapperWalk (cons dev : Nat) : Nat → Int → Nat → List Int
  | 0, _, _ => []
  | n + 1, cur, cnt =>
      cur ::
        (if cnt + 1 ≥ cons then
          mapperWalk cons dev n (cur + ((dev : Int) - (cons : Int)) + 1) 0
        else
          mapperWalk cons dev n (cur + 1) (cnt + 1))

/-- The full `all_universes` list built by `IO_Manager.output_artnet_init` for
`numSegments` segments, `consecutive_universes = cons` and
`device_universes = dev`. -/
def universeIds (numSegments cons dev : Nat) : List Int :=
  mapperWalk cons dev numSegments 0 0

/-- The closed form of the id assigned to segment `i`: each device block of
`cons` segments occupies a block of `dev` universe ids. -/
def segmentUniverse (cons dev i : Nat) : Int :=
  ((i / cons) * dev + i % cons : Nat)

/-- `OutputCorrection` methods of `io_manager.py` that operate in integer
arithmetic.  The `2.2 gamma` branch evaluates float64 exponentiation and is
outside this integer model; no claim below depends on its exact values. -/
inductive CorrectionMethod
  | linear
  | quadratic
  | cubic
  | quadruple
deriving DecidableEq

/-- Per-element semantics of `OutputCorrection.apply` (`io_manager.py` lines
638-652) on a uint8 channel value `v < 256`.  NumPy evaluates
`output_buffer ** k` in uint8, wrapping modulo 256; the division by
`max_val ** (k-1)` is float64 true division and `.astype(np.uint8)` truncates
toward zero, which for numerators below 256 coincides with natural floor
division. -/
def correctionApply : CorrectionMethod → Nat → Nat
  | .linear, v => v
  | .quadratic, v => v ^ 2 % 256 / 255
  | .cubic, v => v ^ 3 % 256 / 255 ^ 2
  | .quadruple, v => v ^ 4 % 256 / 255 ^ 3

/-- The `addressing_direction` setting of `IO_Manager`. -/
inductive AddressingDirection
  | horizontal
  | vertical
deriving DecidableEq

/-- The wiring/output configuration fields of `IO_Manager` read by
`output_artnet_init` and `update_artnet_output` (`io_manager.py`).
`gamma_correction = none` models `self.gamma_correction is None`. -/
structure OutputConfig where
  width : Nat
  height : Nat
  pixel_channels : Nat
  addressing_direction : AddressingDirection
  reverse_addressing : Bool
  consecutive_universes : Nat
  device_order_reversed : Bool
  device_universes : Nat
  flip_top_bottom : Bool
  flip_left_right : Bool
  gamma_correction : Option CorrectionMethod

/-- `num_segments` in `IO_Manager.output_artnet_init` (`io_manager.py` line
485): width for vertical addressing, height for horizontal. -/
def numSegments (cfg : OutputConfig) : Nat :=
  match cfg.addressing_direction with
  | .vertical => cfg.width
  | .horizontal => cfg.height

/-- The `segment_to_universe` dictionary built by
`IO_Manager.output_artnet_init`, as a lookup on segment indices
`0 .. numSegments - 1`. -/
def segment_to_universe (cfg : OutputConfig) (i : Nat) : Int :=
  (universeIds (numSegments cfg) cfg.consecutive_universes cfg.device_universes).getD i 0

/-- A pixel buffer of shape `(width, height, pixel_channels)`, indexed as
`pix x y c` like `self.output_buffer[x, y, c]`. -/
def Pix : Type := Nat → Nat → Nat → Nat

/-- The two global flips at the top of `IO_Manager.update_artnet_output`
(`io_manager.py` lines 532-536): `np.flip(_, axis=1)` mirrors `y`,
`np.flip(_, axis=0)` mirrors `x`. -/
def flippedPix (cfg : OutputConfig) (pix : Pix) : Pix :=
  let p1 : Pix :=
    if cfg.flip_top_bottom then fun x y c => pix x (cfg.height - 1 - y) c else pix
  if cfg.flip_left_right then fun x y c => p1 (cfg.width - 1 - x) y c else p1

/-- The buffer after the flips and the output correction
(`io_manager.py` lines 532-539): the local `output_buffer` variable of
`update_artnet_output`. -/
def processedPix (cfg : OutputConfig) (pix : Pix) : Pix :=
  match cfg.gamma_correction with
  | none => flippedPix cfg pix
  | some m => fun x y c => correctionApply m (flippedPix cfg pix x y c)

/-- The device-order block remapping inside `IO_Manager.update_artnet_output`
(`io_manager.py` lines 550-557 and 570-578): blocks of
`consecutive_universes` segments are swapped with their mirror block, index
within the block preserved; indices past the last complete block stay put. -/
def blockRemap (cfg : OutputConfig) (segments x : Nat) : Nat :=
  if cfg.device_order_reversed ∧ 0 < cfg.consecutive_universes then
    let numBlocks := segments / cfg.consecutive_universes
    let blockIdx := x / cfg.consecutive_universes
    if blockIdx < numBlocks then
      ((numBlocks - 1) - blockIdx) * cfg.consecutive_universes + x % cfg.consecutive_universes
    else x
  else x

/-- `output_buffer[source_x, :, :].flatten().tolist()`: one column of the
buffer, `y` major and channel minor. -/
def sliceColumn (cfg : OutputConfig) (pix : Pix) (x : Nat) : List Nat :=
  ((List.range cfg.height).map
    (fun y => (List.range cfg.pixel_channels).map (fun c => pix x y c))).flatten

/-- `self.output_buffer[:, source_y, :]`, flipped along `x` when
`reverse_addressing` is set, then flattened: one row of the buffer, `x` major
and channel minor (`io_manager.py` lines 581-586). -/
def sliceRow (cfg : OutputConfig) (pix : Pix) (y : Nat) : List Nat :=
  let xs := List.range cfg.width
  let xs := if cfg.reverse_addressing then xs.reverse else xs
  (xs.map (fun x => (List.range cfg.pixel_channels).map (fun c => pix x y c))).flatten

/-- The data path of `IO_Manager.update_artnet_output` (`io_manager.py` lines
516-589): the list of `(universe, dmx_values)` pairs handed to
`artnet_sender.set`, in loop order.  The vertical branch slices the processed
(flipped and corrected) buffer; the horizontal branch slices
`self.output_buffer` directly, exactly as the source does. -/
def update_artnet_output (cfg : OutputConfig) (pix : Pix) : List (Int × List Nat) :=
  let out := processedPix cfg pix
  match cfg.addressing_direction with
  | .vertical =>
      (List.range (min cfg.width (numSegments cfg))).map (fun x0 =>
        let x := if cfg.reverse_addressing then (cfg.width - 1) - x0 else x0
        let sx := blockRemap cfg cfg.width x
        (segment_to_universe cfg x, sliceColumn cfg out sx))
  | .horizontal =>
      (List.range (min cfg.height (numSegments cfg))).map (fun y =>
        let sy := blockRemap cfg cfg.height y
        (segment_to_universe cfg y, sliceRow cfg pix sy))

/-- State of `DMX_channels_Input` (`ui/dmx_channels.py`): the `channels`
dictionary is modelled as a total function on channel indices. -/
structure DMXChannelsInput where
  n_channels : Nat
  channels : Nat → Int
  ignore_external : Bool

namespace DMXChannelsInput

/-- The `for i, value in enumerate(values)` loop of
`DMX_channels_Input.update_sliders`: writes `max(0, min(255, value))` at
index `i`, starting at `i = start`. -/
def writeValues (channels : Nat → Int) : Nat → List Int → (Nat → Int)
  | _, [] => channels
  | i, v :: rest => writeValues (Function.update channels i (max 0 (min 255 v))) (i + 1) rest

/-- `DMX_channels_Input.update_sliders` (`ui/dmx_channels.py` lines 54-75):
an external update is dropped wholesale when `ignore_external` is set;
otherwise the supplied values are clamped to `[0, 255]` and written over the
channels in index order. -/
def update_sliders (st : DMXChannelsInput) (values : List Int) (external : Bool) :
    DMXChannelsInput :=
  if external = true ∧ st.ignore_external = true then st
  else { st with channels := writeValues st.channels 0 values }

end DMXChannelsInput

/-- The Art-Net data packet for universe `u` with sequence byte `seq`,
physical-port byte `port` and the given payload, as assembled by
`StupidArtnet.show` from `make_artdmx_header` (simplified mode) followed by
the pending buffer; the packet-size field is the payload length.  The source
always writes `0` for the physical-port byte; the spec codec interface takes
it as a parameter, which does not affect any other byte. -/
def encode_data_packet (u seq port : Nat) (payload : List Nat) : List Nat :=
  [65, 114, 116, 45, 78, 101, 116, 0] ++ [0x00, 0x50] ++ [0x0, 14] ++ [seq, port] ++
    (let p := shift_this u
     [p.2, p.1]) ++
    (let ps := shift_this payload.length
     [ps.1, ps.2]) ++
    payload

/-- Modelled from the spec: `decode_data_packet` — the decode side of the
protocol codec lives in the external `stupidArtnet` server used by
`io_manager.py`, not under the repository sources.  Following the spec, it
validates the magic id and the data opcode, reads the universe id from the
low/high byte pair and the payload length from the big-endian length field,
and returns the universe and payload; anything malformed yields `none`. -/
def decode_data_packet (p : List Nat) : Option (Nat × List Nat) :=
  match p with
  | a0 :: a1 :: a2 :: a3 :: a4 :: a5 :: a6 :: a7 :: o0 :: o1 :: _v0 :: _v1 :: _seq :: _port
      :: ul :: uh :: l0 :: l1 :: rest =>
      if [a0, a1, a2, a3, a4, a5, a6, a7] = [65, 114, 116, 45, 78, 101, 116, 0]
          ∧ o0 = 0x00 ∧ o1 = 0x50 then
        some (ul + 256 * uh, rest.take (256 * l0 + l1))
      else none
  | _ => none

/-! ### Concrete states used by witnesses and counterexamples -/

/-- A small transmitter: two universes of two channels, pending data that
differs from the all-zero last-sent snapshot, timestamps and sequences at
their initial values. -/
def sampleArtnet : StupidArtnet where
  universes := [0, 1]
  packet_size := 2
  universe_buffer := fun _ => [9, 9]
  last_sent_buffer := fun _ => [0, 0]
  last_send_time := fun _ => 0
  sequences := fun _ => 0
  is_simplified := true
  subnet := 0
  net := 0
  make_even := true

/-- A transmitter that has already been transmitting: non-zero buffer
contents, sequence counter and last-send timestamp. -/
def sampleArtnetUsed : StupidArtnet where
  universes := [0]
  packet_size := 2
  universe_buffer := fun _ => [7, 7]
  last_sent_buffer := fun _ => [7, 7]
  last_send_time := fun _ => 3
  sequences := fun _ => 5
  is_simplified := true
  subnet := 0
  net := 0
  make_even := true

/-- The end-to-end mapper scenario of the spec: resolution `(4,1)`, two
consecutive universes per device of three, vertical addressing, no
reversal. -/
def sampleCfg : OutputConfig where
  width := 4
  height := 1
  pixel_channels := 1
  addressing_direction := .vertical
  reverse_addressing := false
  consecutive_universes := 2
  device_order_reversed := false
  device_universes := 3
  flip_top_bottom := false
  flip_left_right := false
  gamma_correction := none

/-- A `(2,1)` wall addressed horizontally with the left-right flip enabled
and no output correction. -/
def sampleCfgH : OutputConfig where
  width := 2
  height := 1
  pixel_channels := 1
  addressing_direction := .horizontal
  reverse_addressing := false
  consecutive_universes := 1
  device_order_reversed := false
  device_universes := 1
  flip_top_bottom := false
  flip_left_right := true
  gamma_correction := none

/-- A buffer whose single channel value equals the pixel's column index. -/
def samplePix : Pix := fun x _ _ => x

/-- A channel input handler with external input not ignored. -/
def sampleDMX : DMXChannelsInput where
  n_channels := 14
  channels := fun _ => 0
  ignore_external := false

/-! ### Byte-level helpers -/

/-- Masking with `0xFF` is reduction modulo 256. -/
lemma and_255_eq_mod (n : Nat) : n &&& 255 = n % 256 := by
  have h := Nat.and_pow_two_sub_one_eq_mod n 8
  norm_num at h
  exact h

/-- Shifting right by 8 is division by 256. -/
lemma shiftRight_8_eq_div (n : Nat) : n >>> 8 = n / 256 := by
  have h := Nat.shiftRight_eq_div_pow n 8
  norm_num at h
  exact h

/-- `shift_this` returns the high and the low byte. -/
lemma shift_this_eq (n : Nat) : shift_this n = (n / 256 % 256, n % 256) := by
  simp [shift_this, and_255_eq_mod, shiftRight_8_eq_div]

/-! ### C3: ArtDmx header layout -/

/-- C3: for a universe id up to 32767, a sequence byte up to 255 and the
configured (clamped, hence at most 512) packet size, the encoded header in
simplified mode is exactly the 18 bytes: the string bytes of `Art-Net` plus a
null terminator, opcode `0x00 0x50` low byte first, protocol version `0x00 14`
high byte first, the sequence byte, physical port `0`, the universe id low
byte then high byte, and the packet size high byte then low byte; and the
packet transmitted by `show` is this header followed by the pending payload. -/
theorem artdmx_header_layout (a : StupidArtnet) (u : Nat)
    (hu : u ≤ 32767) (hs : a.sequences u ≤ 255) (hsimp : a.is_simplified = true)
    (hps : a.packet_size ≤ 512) :
    a.make_artdmx_header u =
      [65, 114, 116, 45, 78, 101, 116, 0, 0x00, 0x50, 0x0, 14,
       a.sequences u, 0, u % 256, u / 256, a.packet_size / 256, a.packet_size % 256] ∧
    (a.make_artdmx_header u).length = 18 ∧
    (∀ (fails : Nat → Bool) (t : ℚ), StupidArtnet.sendCondition a t u → fails u = false →
      (StupidArtnet.showStep fails t a u).2 =
        [(u, a.make_artdmx_header u ++ a.universe_buffer u)]) := by
  have hu8 : u / 256 % 256 = u / 256 := Nat.mod_eq_of_lt (by omega)
  have hps8 : a.packet_size / 256 % 256 = a.packet_size / 256 :=
    Nat.mod_eq_of_lt (by omega)
  refine ⟨?_, ?_, ?_⟩
  · simp [StupidArtnet.make_artdmx_header, hsimp, shift_this_eq, hu8, hps8]
  · simp [StupidArtnet.make_artdmx_header, hsimp]
  · intro fails t hc hf
    simp [StupidArtnet.showStep, hc, hf]

/-- Witness for C3 at universe 300 on the sample transmitter. -/
theorem artdmx_header_layout_witness :
    sampleArtnet.make_artdmx_header 300 =
      [65, 114, 116, 45, 78, 101, 116, 0, 0, 0x50, 0, 14, 0, 0, 44, 1, 0, 2] :=
  (artdmx_header_layout sampleArtnet 300 (by decide) (by decide) rfl (by decide)).1

/-! ### C4: encode/decode round trip -/

/-- C4: decoding the encoding of a data packet recovers the universe id and
the payload exactly, for universe ids up to 32767 and even payload lengths
in `[2, 512]`. -/
theorem decode_encode_roundtrip (u seq port : Nat) (payload : List Nat)
    (hu : u ≤ 32767) (heven : payload.length % 2 = 0)
    (hlo : 2 ≤ payload.length) (hhi : payload.length ≤ 512) :
    decode_data_packet (encode_data_packet u seq port payload) = some (u, payload) := by
  have hu8 : u / 256 % 256 = u / 256 := Nat.mod_eq_of_lt (by omega)
  have hl8 : payload.length / 256 % 256 = payload.length / 256 :=
    Nat.mod_eq_of_lt (by omega)
  simp only [encode_data_packet, shift_this_eq, List.cons_append, List.nil_append,
    decode_data_packet]
  rw [if_pos (by norm_num)]
  rw [hu8, hl8, Nat.mod_add_div u 256, Nat.div_add_mod payload.length 256,
    List.take_length]

/-- Witness for C4 at a concrete packet. -/
theorem decode_encode_roundtrip_witness :
    decode_data_packet (encode_data_packet 300 7 0 [1, 2, 3, 4]) = some (300, [1, 2, 3, 4]) :=
  decode_encode_roundtrip 300 7 0 [1, 2, 3, 4] (by decide) (by decide) (by decide) (by decide)

/-! ### C5: output correction -/

/-- C5 fails on the code: NumPy evaluates the integer power curves in uint8,
which wraps modulo 256 before the (truncating) division, so quadratic, cubic
and quadruple map full brightness 255 to 0 — not to
`round(255 * (255/255) ^ k) = 255` as specified; only linear is the
identity there.  (`255 ^ 2 = 65025 ≡ 1 (mod 256)`, and `1 / 255` truncates
to `0`.) -/
theorem outputCorrection_overflow :
    correctionApply .quadratic 255 = 0 ∧
    correctionApply .cubic 255 = 0 ∧
    correctionApply .quadruple 255 = 0 ∧
    correctionApply .linear 255 = 255 ∧
    255 ^ 2 % 256 = 1 := by
  decide

/-! ### C9: ignore-external mode of the channel input -/

/-- Indices below the write window are untouched by `writeValues`. -/
lemma writeValues_lt (values : List Int) :
    ∀ (channels : Nat → Int) (start j : Nat), j < start →
      DMXChannelsInput.writeValues channels start values j = channels j := by
  induction values with
  | nil => intro channels start j _; rfl
  | cons v rest ih =>
      intro channels start j hj
      simp only [DMXChannelsInput.writeValues]
      rw [ih _ (start + 1) j (by omega), Function.update_noteq (by omega)]

/-- `writeValues` writes the clamped value of entry `i` at index
`start + i`. -/
lemma writeValues_spec (values : List Int) :
    ∀ (channels : Nat → Int) (start i : Nat), i < values.length →
      DMXChannelsInput.writeValues channels start values (start + i)
        = max 0 (min 255 (values.getD i 0)) := by
  induction values with
  | nil => intro channels start i hi; simp at hi
  | cons v rest ih =>
      intro channels start i hi
      cases i with
      | zero =>
          simp only [DMXChannelsInput.writeValues, Nat.add_zero, List.getD_cons_zero]
          rw [writeValues_lt rest _ (start + 1) start (by omega), Function.update_same]
      | succ i =>
          simp only [DMXChannelsInput.writeValues, List.getD_cons_succ]
          have h : start + (i + 1) = (start + 1) + i := by omega
          rw [h, ih _ (start + 1) i (by simpa using hi)]

/-- C9: when `ignore_external` is set, an external `update_sliders` leaves all
channel values unchanged; when it is cleared, an external update overwrites
channel `i` with the supplied value clamped to `[0, 255]`, for every supplied
index. -/
theorem update_sliders_ignore_mode (st : DMXChannelsInput) (values : List Int) :
    (st.ignore_external = true →
      (st.update_sliders values true).channels = st.channels) ∧
    (st.ignore_external = false → ∀ i, i < values.length →
      (st.update_sliders values true).channels i
        = max 0 (min 255 (values.getD i 0))) := by
  constructor
  · intro h
    simp [DMXChannelsInput.update_sliders, h]
  · intro h i hi
    simp only [DMXChannelsInput.update_sliders, h]
    norm_num
    simpa using writeValues_spec values st.channels 0 i hi

/-- Witness for C9: values 300 and -7 land as 255 and 0. -/
theorem update_sliders_ignore_mode_witness :
    (sampleDMX.update_sliders [300, -7] true).channels 0 = 255 ∧
    (sampleDMX.update_sliders [300, -7] true).channels 1 = 0 := by
  have h := (update_sliders_ignore_mode sampleDMX [300, -7]).2 rfl
  exact ⟨by simpa using h 0 (by decide), by simpa using h 1 (by decide)⟩

/-! ### C10: rejected payloads leave the transmitter unchanged -/

/-- C10: `set` with a payload whose length differs from the configured packet
size leaves the whole transmitter state unchanged — the payload is dropped
with no partial write (the source prints an error and returns). -/
theorem set_wrong_length_unchanged (a : StupidArtnet) (value : List Nat) (u : Nat)
    (h : value.length ≠ a.packet_size) : a.set value u = a := by
  simp [StupidArtnet.set, h]

/-- Witness for C10: a three-byte payload against packet size two. -/
theorem set_wrong_length_unchanged_witness :
    [1, 2, 3].length ≠ sampleArtnet.packet_size ∧
    sampleArtnet.set [1, 2, 3] 0 = sampleArtnet :=
  ⟨by decide, set_wrong_length_unchanged sampleArtnet [1, 2, 3] 0 (by decide)⟩

/-! ### C1: the universe mapper -/

/-- The universe-assignment loop computes the closed form: segment `i` gets
universe `(i / cons) * dev + i % cons`. -/
lemma mapperWalk_closed (cons dev : Nat) (hc : 0 < cons) :
    ∀ (n i : Nat),
      mapperWalk cons dev n (segmentUniverse cons dev i) (i % cons) =
        (List.range n).map (fun j => segmentUniverse cons dev (i + j)) := by
  intro n
  induction n with
  | zero => intro i; rfl
  | succ n ih =>
      intro i
      rw [List.range_succ_eq_map, List.map_cons, List.map_map]
      have hshift : ((fun j => segmentUniverse cons dev (i + j)) ∘ Nat.succ)
          = fun j => segmentUniverse cons dev ((i + 1) + j) := by
        funext j
        simp only [Function.comp]
        congr 1
        omega
      rw [hshift]
      have hr : i % cons < cons := Nat.mod_lt i hc
      have hdm := Nat.div_add_mod i cons
      rw [mapperWalk]
      by_cases hcase : i % cons + 1 ≥ cons
      · have hm : i % cons = cons - 1 := by omega
        have key2 : i + 1 = cons * (i / cons + 1) := by
          rw [Nat.mul_succ]; omega
        have hdiv : (i + 1) / cons = i / cons + 1 := by
          rw [key2, Nat.mul_div_cancel_left _ hc]
        have hmod : (i + 1) % cons = 0 := by
          rw [key2, Nat.mul_mod_right]
        have hcur : segmentUniverse cons dev i + ((dev : Int) - (cons : Int)) + 1
            = segmentUniverse cons dev (i + 1) := by
          simp only [segmentUniverse, hdiv, hmod, hm]
          push_cast [Nat.cast_sub (by omega : 1 ≤ cons)]
          ring
        rw [if_pos hcase, hcur]
        have h3 := ih (i + 1)
        rw [hmod] at h3
        rw [h3]
        simp
      · have h2 := (Nat.div_mod_unique hc (a := i + 1) (d := i / cons)
          (c := i % cons + 1)).mpr ⟨by omega, by omega⟩
        have hdiv : (i + 1) / cons = i / cons := h2.1
        have hmod : (i + 1) % cons = i % cons + 1 := h2.2
        have hcur : segmentUniverse cons dev i + 1 = segmentUniverse cons dev (i + 1) := by
          simp only [segmentUniverse, hdiv, hmod]
          push_cast
          ring
        rw [if_neg hcase, hcur]
        have h3 := ih (i + 1)
        rw [hmod] at h3
        rw [h3]
        simp


/-- The assignment list is the closed form mapped over segment indices. -/
lemma universeIds_eq_map (n cons dev : Nat) (hc : 0 < cons) :
    universeIds n cons dev = (List.range n).map (segmentUniverse cons dev) := by
  have h := mapperWalk_closed cons dev hc n 0
  simp only [Nat.zero_mod, Nat.zero_add] at h
  have h0 : segmentUniverse cons dev 0 = 0 := by
    simp [segmentUniverse]
  rw [h0] at h
  simpa [universeIds] using h


/-- Lookup in the assignment list below the segment count. -/
lemma universeIds_getD (n cons dev i : Nat) (hc : 0 < cons) (hi : i < n) :
    (universeIds n cons dev).getD i 0 = segmentUniverse cons dev i := by
  rw [universeIds_eq_map n cons dev hc]
  rw [List.getD_eq_getElem _ _ (by simpa using hi)]
  simp

/-- Consecutive universe ids differ by `1` inside a device block and by
`(dev - cons) + 1` across a block boundary. -/
lemma segmentUniverse_succ (cons dev i : Nat) (hc : 0 < cons) :
    segmentUniverse cons dev (i + 1) =
      segmentUniverse cons dev i +
        (if cons ∣ (i + 1) then ((dev : Int) - (cons : Int)) + 1 else 1) := by
  have hdm := Nat.div_add_mod i cons
  have hr : i % cons < cons := Nat.mod_lt i hc
  by_cases hd : cons ∣ (i + 1)
  · obtain ⟨k, hk⟩ := hd
    have hk0 : k ≠ 0 := by rintro rfl; omega
    have hmul : cons * k = cons * (k - 1) + cons := by
      cases k with
      | zero => omega
      | succ k => simp [Nat.mul_succ]
    have hi1 : (i + 1) / cons = k ∧ (i + 1) % cons = 0 :=
      (Nat.div_mod_unique hc).mpr ⟨by omega, hc⟩
    have hi0 : i / cons = k - 1 ∧ i % cons = cons - 1 :=
      (Nat.div_mod_unique hc).mpr ⟨by omega, by omega⟩
    rw [if_pos ⟨k, hk⟩]
    simp only [segmentUniverse, hi1.1, hi1.2, hi0.1, hi0.2]
    push_cast [Nat.cast_sub (by omega : 1 ≤ cons), Nat.cast_sub (by omega : 1 ≤ k)]
    ring
  · have hm0 : (i + 1) % cons ≠ 0 := fun h =>
      hd (Nat.dvd_iff_mod_eq_zero.mpr h)
    have hlt : i % cons + 1 < cons := by
      rcases Nat.lt_or_ge (i % cons + 1) cons with h | h
      · exact h
      · exfalso
        have hmul : cons * (i / cons + 1) = cons * (i / cons) + cons := by
          simp [Nat.mul_succ]
        have hi1 : (i + 1) / cons = i / cons + 1 ∧ (i + 1) % cons = 0 :=
          (Nat.div_mod_unique hc).mpr ⟨by omega, hc⟩
        exact hm0 hi1.2
    have hi1 : (i + 1) / cons = i / cons ∧ (i + 1) % cons = i % cons + 1 :=
      (Nat.div_mod_unique hc).mpr ⟨by omega, hlt⟩
    rw [if_neg hd]
    simp only [segmentUniverse, hi1.1, hi1.2]
    push_cast
    ring


/-- With `cons ≤ dev` the assignment is strictly increasing. -/
lemma segmentUniverse_lt (cons dev i j : Nat) (hc : 0 < cons) (hcd : cons ≤ dev)
    (hij : i < j) : segmentUniverse cons dev i < segmentUniverse cons dev j := by
  simp only [segmentUniverse]
  rw [Nat.cast_lt]
  have hdiv : i / cons ≤ j / cons := Nat.div_le_div_right (le_of_lt hij)
  have hri : i % cons < cons := Nat.mod_lt i hc
  rcases Nat.lt_or_ge (i / cons) (j / cons) with hlt | hge
  · have h1 : (i / cons + 1) * dev ≤ (j / cons) * dev :=
      Nat.mul_le_mul_right _ hlt
    have h2 : (i / cons + 1) * dev = (i / cons) * dev + dev := by
      simp [Nat.succ_mul]
    omega
  · have heq : i / cons = j / cons := by omega
    have d1 := Nat.div_add_mod i cons
    have d2 := Nat.div_add_mod j cons
    rw [heq] at d1
    have hmod : i % cons < j % cons := by omega
    rw [heq]
    omega

/-- C1: for a wiring configuration addressed vertically, the mapper walks
segments `0 .. width-1` assigning ids of the closed recurrence: each id is the
previous one plus `1`, except after every `consecutive_universes` segments
where it skips ahead by `(device_universes - consecutive_universes) + 1`; with
`consecutive_universes ≤ device_universes` the ids are strictly increasing; and
the `(4,1)`-resolution scenario with `consecutive_universes = 2` and
`device_universes = 3` yields ids `[0, 1, 3, 4]`. -/
theorem universe_mapper_vertical (cfg : OutputConfig)
    (hdir : cfg.addressing_direction = .vertical)
    (hc : 0 < cfg.consecutive_universes) :
    numSegments cfg = cfg.width ∧
    (universeIds (numSegments cfg) cfg.consecutive_universes
        cfg.device_universes).length = cfg.width ∧
    (∀ i, i + 1 < cfg.width →
      (universeIds (numSegments cfg) cfg.consecutive_universes
          cfg.device_universes).getD (i + 1) 0 =
        (universeIds (numSegments cfg) cfg.consecutive_universes
            cfg.device_universes).getD i 0 +
          (if cfg.consecutive_universes ∣ (i + 1)
           then ((cfg.device_universes : Int) - (cfg.consecutive_universes : Int)) + 1
           else 1)) ∧
    (cfg.consecutive_universes ≤ cfg.device_universes →
      ∀ i j, i < j → j < cfg.width →
        (universeIds (numSegments cfg) cfg.consecutive_universes
            cfg.device_universes).getD i 0 <
          (universeIds (numSegments cfg) cfg.consecutive_universes
              cfg.device_universes).getD j 0) ∧
    universeIds 4 2 3 = [0, 1, 3, 4] := by
  have hseg : numSegments cfg = cfg.width := by simp [numSegments, hdir]
  refine ⟨hseg, ?_, ?_, ?_, by decide⟩
  · rw [universeIds_eq_map _ _ _ hc, hseg]
    simp
  · intro i hi
    rw [universeIds_getD _ _ _ _ hc (by omega),
        universeIds_getD _ _ _ _ hc (by omega)]
    exact segmentUniverse_succ _ _ i hc
  · intro hcd i j hij hj
    rw [universeIds_getD _ _ _ _ hc (by omega),
        universeIds_getD _ _ _ _ hc (by omega)]
    exact segmentUniverse_lt _ _ i j hc hcd hij


/-- Witness for C1 on the sample configuration. -/
theorem universe_mapper_vertical_witness :
    universeIds 4 2 3 = [0, 1, 3, 4] :=
  (universe_mapper_vertical sampleCfg rfl (by decide)).2.2.2.2

/-! ### C2 and C8: the show sweep -/

namespace StupidArtnet

/-- A `show` iteration never touches the universe list, the packet size, the
header configuration or the pending buffers. -/
lemma showStep_const (fails : Nat → Bool) (t : ℚ) (a : StupidArtnet) (v : Nat) :
    ((showStep fails t a v).1.universes = a.universes ∧
     (showStep fails t a v).1.packet_size = a.packet_size ∧
     (showStep fails t a v).1.is_simplified = a.is_simplified ∧
     (showStep fails t a v).1.subnet = a.subnet ∧
     (showStep fails t a v).1.net = a.net) ∧
    (showStep fails t a v).1.universe_buffer = a.universe_buffer := by
  unfold showStep
  split
  · split
    · exact ⟨⟨rfl, rfl, rfl, rfl, rfl⟩, rfl⟩
    · exact ⟨⟨rfl, rfl, rfl, rfl, rfl⟩, rfl⟩
  · exact ⟨⟨rfl, rfl, rfl, rfl, rfl⟩, rfl⟩

/-- A `show` iteration for universe `v` leaves the per-universe state of
every other universe unchanged. -/
lemma showStep_noteq (fails : Nat → Bool) (t : ℚ) (a : StupidArtnet) (v u : Nat)
    (h : u ≠ v) :
    (showStep fails t a v).1.last_sent_buffer u = a.last_sent_buffer u ∧
    (showStep fails t a v).1.last_send_time u = a.last_send_time u ∧
    (showStep fails t a v).1.sequences u = a.sequences u := by
  unfold showStep
  split
  · split
    · exact ⟨rfl, rfl, Function.update_noteq h _ _⟩
    · exact ⟨Function.update_noteq h _ _, Function.update_noteq h _ _,
        Function.update_noteq h _ _⟩
  · exact ⟨rfl, rfl, rfl⟩

/-- A `show` iteration for universe `v` emits no packet for another
universe. -/
lemma showStep_filter_ne (fails : Nat → Bool) (t : ℚ) (a : StupidArtnet) (v u : Nat)
    (h : u ≠ v) :
    (showStep fails t a v).2.filter (fun p => p.1 == u) = [] := by
  unfold showStep
  split
  · split
    · rfl
    · simp [Ne.symm h]
  · rfl

/-- Every packet emitted by a `show` iteration for `u` is addressed to `u`. -/
lemma showStep_filter_self (fails : Nat → Bool) (t : ℚ) (a : StupidArtnet) (u : Nat) :
    (showStep fails t a u).2.filter (fun p => p.1 == u) = (showStep fails t a u).2 := by
  unfold showStep
  split
  · split
    · rfl
    · simp
  · rfl

/-- A `show` iteration for `u` depends only on the state at key `u` and the
header configuration. -/
lemma showStep_congr (fails : Nat → Bool) (t : ℚ) (u : Nat) (a b : StupidArtnet)
    (h1 : b.universe_buffer u = a.universe_buffer u)
    (h2 : b.last_sent_buffer u = a.last_sent_buffer u)
    (h3 : b.last_send_time u = a.last_send_time u)
    (h4 : b.sequences u = a.sequences u)
    (h5 : b.packet_size = a.packet_size)
    (h6 : b.is_simplified = a.is_simplified)
    (h7 : b.subnet = a.subnet)
    (h8 : b.net = a.net) :
    (showStep fails t b u).2 = (showStep fails t a u).2 ∧
    (showStep fails t b u).1.universe_buffer u = (showStep fails t a u).1.universe_buffer u ∧
    (showStep fails t b u).1.last_sent_buffer u = (showStep fails t a u).1.last_sent_buffer u ∧
    (showStep fails t b u).1.last_send_time u = (showStep fails t a u).1.last_send_time u ∧
    (showStep fails t b u).1.sequences u = (showStep fails t a u).1.sequences u := by
  have hdr : b.make_artdmx_header u = a.make_artdmx_header u := by
    simp only [make_artdmx_header, h4, h5, h6, h7, h8]
  have hcond : sendCondition b t u ↔ sendCondition a t u := by
    unfold sendCondition
    rw [h1, h2, h3]
  by_cases hca : sendCondition a t u
  · have hcb : sendCondition b t u := hcond.mpr hca
    by_cases hf : fails u
    · simp [showStep, hca, hcb, hf, h1, h2, h3, h4, Function.update_same]
    · simp [showStep, hca, hcb, hf, h1, h2, h3, h4, hdr, Function.update_same]
  · have hcb : ¬ sendCondition b t u := fun h => hca (hcond.mp h)
    simp [showStep, hca, hcb, h1, h2, h3, h4]

/-- The `show` sweep preserves the universe list. -/
lemma showOver_universes (fails : Nat → Bool) (t : ℚ) :
    ∀ (l : List Nat) (a : StupidArtnet),
      (showOver fails t a l).1.universes = a.universes := by
  intro l
  induction l with
  | nil => intro a; rfl
  | cons v rest ih =>
      intro a
      simp only [showOver]
      rw [ih]
      exact (showStep_const fails t a v).1.1

/-- A sweep over a list not containing `u` emits nothing for `u` and leaves
the state at `u` unchanged. -/
lemma showOver_not_mem (fails : Nat → Bool) (t : ℚ) (u : Nat) :
    ∀ (l : List Nat) (a : StupidArtnet), u ∉ l →
      (showOver fails t a l).2.filter (fun p => p.1 == u) = [] ∧
      (showOver fails t a l).1.universe_buffer u = a.universe_buffer u ∧
      (showOver fails t a l).1.last_sent_buffer u = a.last_sent_buffer u ∧
      (showOver fails t a l).1.last_send_time u = a.last_send_time u ∧
      (showOver fails t a l).1.sequences u = a.sequences u := by
  intro l
  induction l with
  | nil => intro a _; exact ⟨rfl, rfl, rfl, rfl, rfl⟩
  | cons v rest ih =>
      intro a hu
      have hne : u ≠ v := fun h => hu (h ▸ List.mem_cons_self v rest)
      have hrest : u ∉ rest := fun h => hu (List.mem_cons_of_mem v h)
      have hstep := showStep_noteq fails t a v u hne
      have hbuf := (showStep_const fails t a v).2
      have hr := ih ((showStep fails t a v).1) hrest
      simp only [showOver]
      refine ⟨?_, ?_, ?_, ?_, ?_⟩
      · rw [List.filter_append, hr.1, showStep_filter_ne fails t a v u hne]
        rfl
      · rw [hr.2.1, hbuf]
      · rw [hr.2.2.1, hstep.1]
      · rw [hr.2.2.2.1, hstep.2.1]
      · rw [hr.2.2.2.2, hstep.2.2]

/-- On a duplicate-free universe list containing `u`, the whole sweep treats
`u` exactly as the single iteration applied to the initial state. -/
lemma showOver_spec (fails : Nat → Bool) (t : ℚ) (u : Nat) :
    ∀ (l : List Nat) (a : StupidArtnet), l.Nodup → u ∈ l →
      (showOver fails t a l).2.filter (fun p => p.1 == u) = (showStep fails t a u).2 ∧
      (showOver fails t a l).1.universe_buffer u = (showStep fails t a u).1.universe_buffer u ∧
      (showOver fails t a l).1.last_sent_buffer u = (showStep fails t a u).1.last_sent_buffer u ∧
      (showOver fails t a l).1.last_send_time u = (showStep fails t a u).1.last_send_time u ∧
      (showOver fails t a l).1.sequences u = (showStep fails t a u).1.sequences u := by
  intro l
  induction l with
  | nil => intro a _ h; simp at h
  | cons v rest ih =>
      intro a hnd hu
      rcases List.mem_cons.mp hu with rfl | hmem
      · have hnotin : u ∉ rest := (List.nodup_cons.mp hnd).1
        have hr := showOver_not_mem fails t u rest ((showStep fails t a u).1) hnotin
        simp only [showOver]
        refine ⟨?_, ?_, ?_, ?_, ?_⟩
        · rw [List.filter_append, hr.1, showStep_filter_self fails t a u]
          exact List.append_nil _
        · rw [hr.2.1]
        · rw [hr.2.2.1]
        · rw [hr.2.2.2.1]
        · rw [hr.2.2.2.2]
      · have hne : u ≠ v := by
          rintro rfl
          exact (List.nodup_cons.mp hnd).1 hmem
        have hr := ih ((showStep fails t a v).1) (List.nodup_cons.mp hnd).2 hmem
        have hc := showStep_congr fails t u a ((showStep fails t a v).1)
          (congrFun (showStep_const fails t a v).2 u)
          (showStep_noteq fails t a v u hne).1
          (showStep_noteq fails t a v u hne).2.1
          (showStep_noteq fails t a v u hne).2.2
          (showStep_const fails t a v).1.2.1
          (showStep_const fails t a v).1.2.2.1
          (showStep_const fails t a v).1.2.2.2.1
          (showStep_const fails t a v).1.2.2.2.2
        simp only [showOver]
        refine ⟨?_, ?_, ?_, ?_, ?_⟩
        · rw [List.filter_append, hr.1, showStep_filter_ne fails t a v u hne,
            List.nil_append, hc.1]
        · rw [hr.2.1, hc.2.1]
        · rw [hr.2.2.1, hc.2.2.1]
        · rw [hr.2.2.2.1, hc.2.2.2.1]
        · rw [hr.2.2.2.2, hc.2.2.2.2]

/-- C2: a `show` call transmits a packet for universe `u` exactly when the
pending buffer differs from the last-transmitted one or more than one second
has passed since the last send; in consequence, two `show` calls with
unchanged pending buffers, both within one second of the last send, transmit
at most one packet for `u`. -/
theorem show_change_suppression (a : StupidArtnet) (t1 t2 : ℚ) (u : Nat)
    (hu : u ∈ a.universes) (hnd : a.universes.Nodup) :
    (0 < sentTo u (show' (fun _ => false) t1 a).2 ↔ sendCondition a t1 u) ∧
    (a.last_send_time u ≤ t1 → t1 ≤ t2 →
      t1 - a.last_send_time u ≤ 1 → t2 - a.last_send_time u ≤ 1 →
      sentTo u (show' (fun _ => false) t1 a).2 +
        sentTo u (show' (fun _ => false) t2 (show' (fun _ => false) t1 a).1).2 ≤ 1) := by
  have hspec1 := showOver_spec (fun _ => false) t1 u a.universes a hnd hu
  rw [show showOver (fun _ => false) t1 a a.universes
      = show' (fun _ => false) t1 a from rfl] at hspec1
  have hcount1 : sentTo u (show' (fun _ => false) t1 a).2
      = if sendCondition a t1 u then 1 else 0 := by
    unfold sentTo
    rw [hspec1.1]
    by_cases hc : sendCondition a t1 u
    · simp [showStep, hc]
    · simp [showStep, hc]
  constructor
  · rw [hcount1]
    by_cases hc : sendCondition a t1 u
    · simp [hc]
    · simp [hc]
  · intro h0 h12 hw1 hw2
    have ha1u : (show' (fun _ => false) t1 a).1.universes = a.universes :=
      showOver_universes (fun _ => false) t1 a.universes a
    have hspec2 := showOver_spec (fun _ => false) t2 u
      (show' (fun _ => false) t1 a).1.universes (show' (fun _ => false) t1 a).1
      (ha1u ▸ hnd) (ha1u ▸ hu)
    rw [show showOver (fun _ => false) t2 (show' (fun _ => false) t1 a).1
          (show' (fun _ => false) t1 a).1.universes
        = show' (fun _ => false) t2 (show' (fun _ => false) t1 a).1 from rfl] at hspec2
    have hcount2 : sentTo u (show' (fun _ => false) t2 (show' (fun _ => false) t1 a).1).2
        = if sendCondition (show' (fun _ => false) t1 a).1 t2 u then 1 else 0 := by
      unfold sentTo
      rw [hspec2.1]
      by_cases hc : sendCondition (show' (fun _ => false) t1 a).1 t2 u
      · simp [showStep, hc]
      · simp [showStep, hc]
    have hbuf1 : (show' (fun _ => false) t1 a).1.universe_buffer u
        = a.universe_buffer u := by
      rw [hspec1.2.1, congrFun (showStep_const (fun _ => false) t1 a u).2 u]
    by_cases hc1 : sendCondition a t1 u
    · have hsent : (showStep (fun _ => false) t1 a u).1.last_sent_buffer u
          = a.universe_buffer u := by
        simp [showStep, hc1, Function.update_same]
      have htime : (showStep (fun _ => false) t1 a u).1.last_send_time u = t1 := by
        simp [showStep, hc1, Function.update_same]
      have hnc2 : ¬ sendCondition (show' (fun _ => false) t1 a).1 t2 u := by
        unfold sendCondition
        push_neg
        refine ⟨?_, ?_⟩
        · rw [hbuf1, hspec1.2.2.1, hsent]
        · rw [hspec1.2.2.2.1, htime]
          linarith
      rw [hcount1, hcount2, if_pos hc1, if_neg hnc2]
    · have hns : (showStep (fun _ => false) t1 a u).1.last_sent_buffer u
          = a.last_sent_buffer u := by
        simp [showStep, hc1]
      have hnt : (showStep (fun _ => false) t1 a u).1.last_send_time u
          = a.last_send_time u := by
        simp [showStep, hc1]
      have hc1n := hc1
      unfold sendCondition at hc1n
      push_neg at hc1n
      have hnc2 : ¬ sendCondition (show' (fun _ => false) t1 a).1 t2 u := by
        unfold sendCondition
        push_neg
        refine ⟨?_, ?_⟩
        · rw [hbuf1, hspec1.2.2.1, hns]
          exact hc1n.1
        · rw [hspec1.2.2.2.1, hnt]
          linarith
      rw [hcount1, hcount2, if_neg hc1, if_neg hnc2]
      norm_num

/-- Witness for C2 on the sample transmitter, both calls at time 1. -/
theorem show_change_suppression_witness :
    (0 < sentTo 0 (show' (fun _ => false) 1 sampleArtnet).2) ∧
    sentTo 0 (show' (fun _ => false) 1 sampleArtnet).2 +
      sentTo 0 (show' (fun _ => false) 1 (show' (fun _ => false) 1 sampleArtnet).1).2 ≤ 1 := by
  have h := show_change_suppression sampleArtnet 1 1 0 (by decide) (by decide)
  exact ⟨h.1.mpr (Or.inl (by decide)),
    h.2 (by decide) le_rfl (by norm_num [sampleArtnet]) (by norm_num [sampleArtnet])⟩

/-- C8 amended: during one `show` sweep over a duplicate-free universe list,
a universe whose send condition fails keeps all three state components; a
universe whose send is attempted gets its sequence counter incremented mod
256 whether or not the socket send succeeds (the increment sits in a
`finally` block), while the last-transmitted snapshot and timestamp are
updated exactly on success; each universe is handled independently, so a
failure never stops the sweep. -/
theorem show_attempt_semantics (fails : Nat → Bool) (t : ℚ) (a : StupidArtnet) (u : Nat)
    (hu : u ∈ a.universes) (hnd : a.universes.Nodup) :
    (¬ sendCondition a t u →
      (show' fails t a).1.sequences u = a.sequences u ∧
      (show' fails t a).1.last_sent_buffer u = a.last_sent_buffer u ∧
      (show' fails t a).1.last_send_time u = a.last_send_time u ∧
      sentTo u (show' fails t a).2 = 0) ∧
    (sendCondition a t u → fails u = true →
      (show' fails t a).1.sequences u = (a.sequences u + 1) % 256 ∧
      (show' fails t a).1.last_sent_buffer u = a.last_sent_buffer u ∧
      (show' fails t a).1.last_send_time u = a.last_send_time u ∧
      sentTo u (show' fails t a).2 = 0) ∧
    (sendCondition a t u → fails u = false →
      (show' fails t a).1.sequences u = (a.sequences u + 1) % 256 ∧
      (show' fails t a).1.last_sent_buffer u = a.universe_buffer u ∧
      (show' fails t a).1.last_send_time u = t ∧
      sentTo u (show' fails t a).2 = 1) := by
  have hspec := showOver_spec fails t u a.universes a hnd hu
  rw [show showOver fails t a a.universes = show' fails t a from rfl] at hspec
  refine ⟨?_, ?_, ?_⟩
  · intro hc
    refine ⟨?_, ?_, ?_, ?_⟩
    · rw [hspec.2.2.2.2]
      simp [showStep, hc]
    · rw [hspec.2.2.1]
      simp [showStep, hc]
    · rw [hspec.2.2.2.1]
      simp [showStep, hc]
    · unfold sentTo
      rw [hspec.1]
      simp [showStep, hc]
  · intro hc hf
    refine ⟨?_, ?_, ?_, ?_⟩
    · rw [hspec.2.2.2.2]
      simp [showStep, hc, hf, Function.update_same]
    · rw [hspec.2.2.1]
      simp [showStep, hc, hf]
    · rw [hspec.2.2.2.1]
      simp [showStep, hc, hf]
    · unfold sentTo
      rw [hspec.1]
      simp [showStep, hc, hf]
  · intro hc hf
    refine ⟨?_, ?_, ?_, ?_⟩
    · rw [hspec.2.2.2.2]
      simp [showStep, hc, hf, Function.update_same]
    · rw [hspec.2.2.1]
      simp [showStep, hc, hf, Function.update_same]
    · rw [hspec.2.2.2.1]
      simp [showStep, hc, hf, Function.update_same]
    · unfold sentTo
      rw [hspec.1]
      simp [showStep, hc, hf]

/-- Witness for C8: universe 1 is still served while universe 0 fails. -/
theorem show_attempt_semantics_witness :
    (show' (fun v => v == 0) 1 sampleArtnet).1.sequences 1 = 1 ∧
    (show' (fun v => v == 0) 1 sampleArtnet).1.last_send_time 1 = 1 ∧
    sentTo 1 (show' (fun v => v == 0) 1 sampleArtnet).2 = 1 := by
  have h := (show_attempt_semantics (fun v => v == 0) 1 sampleArtnet 1
    (by decide) (by decide)).2.2 (Or.inl (by decide)) (by decide)
  exact ⟨by simpa using h.1, h.2.2.1, h.2.2.2⟩

/-- C8 as stated fails on the code: a send for universe 0 that hits a socket
error transmits nothing, leaves snapshot and timestamp alone, and still
increments the sequence counter. -/
theorem failed_send_increments_sequence :
    (show' (fun v => v == 0) 1 sampleArtnet).1.sequences 0 = 1 ∧
    (show' (fun v => v == 0) 1 sampleArtnet).1.last_sent_buffer 0 =
      sampleArtnet.last_sent_buffer 0 ∧
    (show' (fun v => v == 0) 1 sampleArtnet).1.last_send_time 0 =
      sampleArtnet.last_send_time 0 ∧
    sentTo 0 (show' (fun v => v == 0) 1 sampleArtnet).2 = 0 := by
  decide

end StupidArtnet

/-! ### C7: reconfiguration -/

namespace StupidArtnet

/-- The resize loop never touches sequences, timestamps, the universe list
or the already-set packet size. -/
lemma foldl_resizeStep_const (ps : Nat) :
    ∀ (l : List Nat) (acc : StupidArtnet),
      (l.foldl (resizeStep ps) acc).sequences = acc.sequences ∧
      (l.foldl (resizeStep ps) acc).last_send_time = acc.last_send_time ∧
      (l.foldl (resizeStep ps) acc).universes = acc.universes ∧
      (l.foldl (resizeStep ps) acc).packet_size = acc.packet_size := by
  intro l
  induction l with
  | nil => intro acc; exact ⟨rfl, rfl, rfl, rfl⟩
  | cons v rest ih =>
      intro acc
      simpa [List.foldl_cons] using ih (resizeStep ps acc v)

/-- The resize loop leaves the buffers of a universe not in the list
unchanged. -/
lemma foldl_resizeStep_not_mem (ps u : Nat) :
    ∀ (l : List Nat) (acc : StupidArtnet), u ∉ l →
      (l.foldl (resizeStep ps) acc).universe_buffer u = acc.universe_buffer u ∧
      (l.foldl (resizeStep ps) acc).last_sent_buffer u = acc.last_sent_buffer u := by
  intro l
  induction l with
  | nil => intro acc _; exact ⟨rfl, rfl⟩
  | cons v rest ih =>
      intro acc hu
      have hne : u ≠ v := fun h => hu (h ▸ List.mem_cons_self v rest)
      have hrest : u ∉ rest := fun h => hu (List.mem_cons_of_mem v h)
      have h2 := ih (resizeStep ps acc v) hrest
      simp only [List.foldl_cons]
      refine ⟨?_, ?_⟩
      · rw [h2.1]
        exact Function.update_noteq hne _ _
      · rw [h2.2]
        exact Function.update_noteq hne _ _

/-- On a duplicate-free universe list, the resize loop replaces the buffers
of each listed universe by their resized copies. -/
lemma foldl_resizeStep_mem (ps u : Nat) :
    ∀ (l : List Nat) (acc : StupidArtnet), l.Nodup → u ∈ l →
      (l.foldl (resizeStep ps) acc).universe_buffer u
          = resizeBuffer (acc.universe_buffer u) ps ∧
      (l.foldl (resizeStep ps) acc).last_sent_buffer u
          = resizeBuffer (acc.last_sent_buffer u) ps := by
  intro l
  induction l with
  | nil => intro acc _ h; simp at h
  | cons v rest ih =>
      intro acc hnd hu
      rcases List.mem_cons.mp hu with rfl | hmem
      · have hnotin : u ∉ rest := (List.nodup_cons.mp hnd).1
        have h2 := foldl_resizeStep_not_mem ps u rest (resizeStep ps acc u) hnotin
        simp only [List.foldl_cons]
        refine ⟨?_, ?_⟩
        · rw [h2.1]
          exact Function.update_same _ _ _
        · rw [h2.2]
          exact Function.update_same _ _ _
      · have hne : u ≠ v := by
          rintro rfl
          exact (List.nodup_cons.mp hnd).1 hmem
        have h2 := ih (resizeStep ps acc v) (List.nodup_cons.mp hnd).2 hmem
        simp only [List.foldl_cons]
        refine ⟨?_, ?_⟩
        · rw [h2.1]
          rw [show (resizeStep ps acc v).universe_buffer u = acc.universe_buffer u from
            Function.update_noteq hne _ _]
        · rw [h2.2]
          rw [show (resizeStep ps acc v).last_sent_buffer u = acc.last_sent_buffer u from
            Function.update_noteq hne _ _]

/-- C7 as stated fails on the code: resizing the packet size from 2 to 4 on a
transmitter with sequence counter 5, buffer `[7,7]` and timestamp 3 keeps the
sequence counter, the timestamp, and the old buffer contents (zero-padded) —
nothing is reset. -/
theorem set_packet_size_keeps_history :
    (sampleArtnetUsed.set_packet_size 4).sequences 0 = 5 ∧
    (sampleArtnetUsed.set_packet_size 4).universe_buffer 0 = [7, 7, 0, 0] ∧
    (sampleArtnetUsed.set_packet_size 4).last_send_time 0 = 3 ∧
    ¬ ((sampleArtnetUsed.set_packet_size 4).sequences 0 = 0 ∧
        (sampleArtnetUsed.set_packet_size 4).universe_buffer 0 = List.replicate 4 0) := by
  refine ⟨by decide, by decide, by norm_num [StupidArtnet.set_packet_size, resizeStep,
    sampleArtnetUsed, put_in_range], by decide⟩

/-- C7 amended: `set_universe` is a hard reset — every universe of the new
singleton list gets a zero pending buffer, a zero last-sent buffer, timestamp
0 and sequence 0 — while `set_packet_size` keeps all sequence counters and
last-send timestamps and resizes each universe's pending and last-sent
buffers in place, preserving the old contents up to the smaller of the old
and new size and zero-filling the rest. -/
theorem reconfiguration_state (a : StupidArtnet) (x ps : Int) :
    (∀ u ∈ (a.set_universe x).universes,
        (a.set_universe x).sequences u = 0 ∧
        (a.set_universe x).universe_buffer u = List.replicate a.packet_size 0 ∧
        (a.set_universe x).last_sent_buffer u = List.replicate a.packet_size 0 ∧
        (a.set_universe x).last_send_time u = 0) ∧
    ((a.set_packet_size ps).sequences = a.sequences ∧
      (a.set_packet_size ps).last_send_time = a.last_send_time ∧
      (a.set_packet_size ps).universes = a.universes ∧
      (a.set_packet_size ps).packet_size = (put_in_range ps 2 512 a.make_even).toNat) ∧
    (a.universes.Nodup → ∀ u ∈ a.universes,
        (a.set_packet_size ps).universe_buffer u
            = resizeBuffer (a.universe_buffer u) ((put_in_range ps 2 512 a.make_even).toNat) ∧
        (a.set_packet_size ps).last_sent_buffer u
            = resizeBuffer (a.last_sent_buffer u) ((put_in_range ps 2 512 a.make_even).toNat)) := by
  refine ⟨?_, ?_, ?_⟩
  · intro u _
    exact ⟨rfl, rfl, rfl, rfl⟩
  · have h := foldl_resizeStep_const ((put_in_range ps 2 512 a.make_even).toNat)
      a.universes { a with packet_size := (put_in_range ps 2 512 a.make_even).toNat }
    exact ⟨h.1, h.2.1, h.2.2.1, h.2.2.2⟩
  · intro hnd u hu
    exact foldl_resizeStep_mem ((put_in_range ps 2 512 a.make_even).toNat) u
      a.universes { a with packet_size := (put_in_range ps 2 512 a.make_even).toNat } hnd hu

/-- Witness for the amended C7 on the sample transmitter. -/
theorem reconfiguration_state_witness :
    (sampleArtnetUsed.set_universe 3).sequences 3 = 0 ∧
    (sampleArtnetUsed.set_packet_size 4).sequences = sampleArtnetUsed.sequences ∧
    (sampleArtnetUsed.set_packet_size 4).universe_buffer 0
        = resizeBuffer (sampleArtnetUsed.universe_buffer 0) 4 := by
  have h := reconfiguration_state sampleArtnetUsed 3 4
  refine ⟨(h.1 3 (by decide)).1, h.2.1.1, ?_⟩
  exact (h.2.2 (by decide) 0 (by decide)).1

end StupidArtnet

/-! ### C6: flips and correction on the output path -/

/-- C6 fails on the code: with horizontal addressing the payload handed to the
transmitter is sliced from the raw `self.output_buffer`, not from the local
flipped-and-corrected buffer computed at the top of `update_artnet_output`
(the horizontal branch reads `self.output_buffer[:, source_y, :]`).  On a
`(2,1)` wall with the left-right flip enabled, the transmitted row is
`[0, 1]` while the slice of the processed buffer is `[1, 0]`. -/
theorem horizontal_output_ignores_processing :
    update_artnet_output sampleCfgH samplePix = [(0, [0, 1])] ∧
    sliceRow sampleCfgH (processedPix sampleCfgH samplePix) 0 = [1, 0] ∧
    update_artnet_output sampleCfgH samplePix
      ≠ [(0, sliceRow sampleCfgH (processedPix sampleCfgH samplePix) 0)] := by
  refine ⟨by decide, by decide, by decide⟩

end LedWall
